/-
Verification of the diatom language frontend against its specification.

The definitions below are a shallow embedding of the Rust sources
src/frontend/util.rs, src/frontend/lexer.rs and src/frontend/parser/mod.rs.
Source text is a `List Char`; iterators are embedded as explicit
remaining-input lists threaded through each function; machine integers
(i64) are `Int` with explicit range checks mirroring `checked_mul` /
`checked_add`; `u32` hex-escape accumulation is `Nat` (it cannot exceed
16^8 = 2^32, so no wraparound is reachable).  A reached `unreachable!()`
is the explicit `panicked` result; loops whose termination is in question
take explicit fuel and return `nofuel` when it runs out.
-/
import Mathlib

namespace Diatom

/-- Position inside one file: `LineLocation` of src/frontend/util.rs. -/
structure LineLocation where
  line : Nat
  offset : Nat
deriving DecidableEq

/-- Comparison of two machine `usize` values (Rust `Ord` on `usize`). -/
def natCmp (a b : Nat) : Ordering :=
  if a < b then Ordering.lt else if a = b then Ordering.eq else Ordering.gt

/-- `Ord for LineLocation` of src/frontend/util.rs: line first, then offset. -/
def LineLocation.cmp (a b : LineLocation) : Ordering :=
  match natCmp a.line b.line with
  | Ordering.eq => natCmp a.offset b.offset
  | o => o

/-- Span: `FileLocation` of src/frontend/util.rs.  The source field `end`
is a Lean keyword, so it is named `stop` here. -/
structure FileLocation where
  start : LineLocation
  stop : LineLocation
deriving DecidableEq

/-- `Default for FileLocation`. -/
def FileLocation.default : FileLocation := ⟨⟨0, 0⟩, ⟨0, 0⟩⟩

/-- `BitOr for FileLocation` of src/frontend/util.rs: keep the smaller
start (`self.start` unless `self.start > rhs.start`) and the larger end
(`self.end` unless `self.end < rhs.end`). -/
def FileLocation.bitor (a b : FileLocation) : FileLocation :=
  { start := if LineLocation.cmp a.start b.start = Ordering.gt then b.start else a.start
    stop := if LineLocation.cmp a.stop b.stop = Ordering.lt then b.stop else a.stop }

/-- Keywords of src/frontend/lexer.rs.  The extra `Begin` variant is the
block-opening keyword referenced by src/frontend/parser/mod.rs (the
parser belongs to a slightly newer revision of the enum); the lexer in
the sources never produces it. -/
inductive Keyword where
  | True | False | Do | End | If | Then | Else | Elsif | Case | In | For
  | Nil | Assert | Return | Break | Continue | Loop | Class | Def
  | Begin
deriving DecidableEq

/-- Operators of src/frontend/lexer.rs.  The extra `Call` variant is the
postfix marker referenced by src/frontend/parser/mod.rs; the lexer in
the sources never produces it. -/
inductive Operator where
  | Plus | Minus | Exp | Mul | DivFloor | Div | Mod | Range | And | Or | Not
  | Gt | Ge | Eq | Ne | Lt | Le | Assign | Comma | Member | Pipeline
  | LPar | RPar | LBrk | RBrk | LBrc | RBrc | Colon
  | Call
deriving DecidableEq

/-- Tokens of src/frontend/lexer.rs.  The `f64` payload of `Float` is
represented by the scanned numeral text: no claim observes a float value,
and only the success or failure of float parsing matters below. -/
inductive Token where
  | Str (s : String)
  | Integer (i : Int)
  | Float (text : String)
  | Id (s : String)
  | Key (k : Keyword)
  | Op (o : Operator)
deriving DecidableEq

/-- Lexical error kinds (variants used by src/frontend/lexer.rs; the
declaring frontend/error.rs is not among the sources, the payloads are
the reason strings the lexer constructs). -/
inductive ErrorType where
  | InvalidNum (reason : String)
  | InvalidStr (reason : String)
  | InvalidOp (op : String)
deriving DecidableEq

/-- Result of one token-scanning function of the lexer:
`Result<(Token, FileLocation), (ErrorType, FileLocation)>` plus an
explicit outcome for a reached `unreachable!()` and one for exhausted
fuel (used by the string-scanning loop, which always receives enough). -/
inductive LexRes where
  | tok (t : Token) (l : FileLocation)
  | err (e : ErrorType) (l : FileLocation)
  | panicked
  | nofuel
deriving DecidableEq

/-- `i64::MAX`. -/
def i64Max : Int := 9223372036854775807

/-- `i64::MIN`. -/
def i64Min : Int := -9223372036854775808

/-- `i64::checked_mul`. -/
def checked_mul (a b : Int) : Option Int :=
  if i64Min ≤ a * b ∧ a * b ≤ i64Max then some (a * b) else none

/-- `i64::checked_add`. -/
def checked_add (a b : Int) : Option Int :=
  if i64Min ≤ a + b ∧ a + b ≤ i64Max then some (a + b) else none

/-- Hex digit loop of `consume_int` (src/frontend/lexer.rs, `0x` branch). -/
def hexLoop (i : Int) : List Char → Except String Int
  | [] => Except.ok i
  | c :: cs =>
    let d? : Option Int :=
      if '0' ≤ c ∧ c ≤ '9' then some ((c.toNat : Int) - ('0'.toNat : Int))
      else if 'a' ≤ c ∧ c ≤ 'f' then some ((c.toNat : Int) - ('a'.toNat : Int) + 10)
      else if 'A' ≤ c ∧ c ≤ 'F' then some ((c.toNat : Int) - ('A'.toNat : Int) + 10)
      else none
    match d? with
    | none => Except.error "Invalid Digit"
    | some d =>
      match checked_mul i 16 with
      | none => Except.error "Integer overflow 64-bits."
      | some i2 =>
        match checked_add i2 d with
        | none => Except.error "Integer overflow 64-bits."
        | some i3 => hexLoop i3 cs

/-- Octal digit loop of `consume_int` (`0o` branch). -/
def octLoop (i : Int) : List Char → Except String Int
  | [] => Except.ok i
  | c :: cs =>
    if '0' ≤ c ∧ c ≤ '7' then
      match checked_mul i 8 with
      | none => Except.error "Integer overflow 64-bits."
      | some i2 =>
        match checked_add i2 ((c.toNat : Int) - ('0'.toNat : Int)) with
        | none => Except.error "Integer overflow 64-bits."
        | some i3 => octLoop i3 cs
    else Except.error "Invalid Digit"

/-- Binary digit loop of `consume_int` (`0b` branch). -/
def binLoop (i : Int) : List Char → Except String Int
  | [] => Except.ok i
  | c :: cs =>
    if '0' ≤ c ∧ c ≤ '1' then
      match checked_mul i 2 with
      | none => Except.error "Integer overflow 64-bits."
      | some i2 =>
        match checked_add i2 ((c.toNat : Int) - ('0'.toNat : Int)) with
        | none => Except.error "Integer overflow 64-bits."
        | some i3 => binLoop i3 cs
    else Except.error "Invalid Digit"

/-- Decimal digit loop of `consume_int` (default branch). -/
def decLoop (i : Int) : List Char → Except String Int
  | [] => Except.ok i
  | c :: cs =>
    if '0' ≤ c ∧ c ≤ '9' then
      match checked_mul i 10 with
      | none => Except.error "Integer overflow 64-bits."
      | some i2 =>
        match checked_add i2 ((c.toNat : Int) - ('0'.toNat : Int)) with
        | none => Except.error "Integer overflow 64-bits."
        | some i3 => decLoop i3 cs
    else Except.error "Invalid Digit"

/-- `consume_int` of src/frontend/lexer.rs: dispatch on the `0x`/`0X`,
`0o`/`0O`, `0b`/`0B` prefixes, otherwise decimal. -/
def consume_int (s : List Char) : Except String Int :=
  match s with
  | '0' :: 'x' :: rest => hexLoop 0 rest
  | '0' :: 'X' :: rest => hexLoop 0 rest
  | '0' :: 'o' :: rest => octLoop 0 rest
  | '0' :: 'O' :: rest => octLoop 0 rest
  | '0' :: 'b' :: rest => binLoop 0 rest
  | '0' :: 'B' :: rest => binLoop 0 rest
  | _ => decLoop 0 s

/-- The reserved ASCII punctuation ranges of the lexer's character
classes: `'!'..='/' | ':'..='@' | '['..='` + backtick + `' | '{'..='~'`
(written numerically: 0x21-0x2F, 0x3A-0x40, 0x5B-0x60, 0x7B-0x7E). -/
def isReservedPunct (c : Char) : Bool :=
  decide ((0x21 ≤ c.toNat ∧ c.toNat ≤ 0x2F) ∨ (0x3A ≤ c.toNat ∧ c.toNat ≤ 0x40) ∨
    (0x5B ≤ c.toNat ∧ c.toNat ≤ 0x60) ∨ (0x7B ≤ c.toNat ∧ c.toNat ≤ 0x7E))

/-- Whitespace characters recognized by the lexer. -/
def isWs (c : Char) : Bool :=
  decide (c = ' ' ∨ c = '\t' ∨ c = '\r' ∨ c = '\n')

/-- `FileIterator::next` position bookkeeping of src/frontend/util.rs:
a newline increments the line and resets the offset, anything else
(including a carriage return) increments the offset. -/
def advanceLoc (l : LineLocation) (c : Char) : LineLocation :=
  if c = '\n' then ⟨l.line + 1, 0⟩ else ⟨l.line, l.offset + 1⟩

/-- Scanning loop of `consume_num` (src/frontend/lexer.rs lines 329-360):
collects the numeral text, skipping underscores, tracking the
exponent flag (`e_flag`) and float flag, and stopping without consuming
at `..`, reserved punctuation or whitespace.  Returns the collected
text, the float flag and the remaining input with its position. -/
def scanNum : List Char → LineLocation → List Char → Bool → Bool →
    List Char × Bool × List Char × LineLocation
  | rest@('.' :: '.' :: _), loc, num, _, float_flag => (num, float_flag, rest, loc)
  | c :: cs, loc, num, e_flag, float_flag =>
    let e_flag2 : Bool := decide (c = 'e' ∨ c = 'E')
    let float_flag2 : Bool := float_flag || decide (c = 'e' ∨ c = 'E') || decide (c = '.')
    if (c = '+' ∨ c = '-') ∧ e_flag = true then
      scanNum cs (advanceLoc loc c) (num ++ [c]) e_flag2 float_flag2
    else if c = '_' then
      scanNum cs (advanceLoc loc c) num e_flag2 float_flag2
    else if c = '.' then
      scanNum cs (advanceLoc loc c) (num ++ [c]) e_flag2 float_flag2
    else if isReservedPunct c then (num, float_flag, c :: cs, loc)
    else if isWs c then (num, float_flag, c :: cs, loc)
    else
      scanNum cs (advanceLoc loc c) (num ++ [c]) e_flag2 float_flag2
  | [], loc, num, _, float_flag => (num, float_flag, [], loc)

/-- Splits off a leading run of decimal digits. -/
def digitSpan : List Char → List Char × List Char
  | c :: cs =>
    if '0' ≤ c ∧ c ≤ '9' then
      let (d, r) := digitSpan cs
      (c :: d, r)
    else ([], c :: cs)
  | [] => ([], [])

/-- Modelled from the spec: "floats are parsed via standard decimal-float
parsing and any parse failure is reported the same way" (section 4.2).
This is the acceptance grammar of Rust's `f64::from_str`, which the
source calls through `num.parse::<f64>()`:
optional sign, then case-insensitive `inf`/`infinity`/`nan` or
`digits [. digits] [e|E [sign] digits]` with at least one mantissa
digit.  Only acceptance matters; the float value itself is not modelled. -/
def floatParseOk (s : List Char) : Bool :=
  let s1 := match s with
    | c :: cs => if c = '+' ∨ c = '-' then cs else c :: cs
    | [] => []
  let lower := s1.map Char.toLower
  if lower = ['i', 'n', 'f'] ∨ lower = ['i', 'n', 'f', 'i', 'n', 'i', 't', 'y'] ∨
      lower = ['n', 'a', 'n'] then
    true
  else
    let (d1, r1) := digitSpan s1
    let (d2, r2) := match r1 with
      | '.' :: cs => digitSpan cs
      | _ => ([], r1)
    if d1.isEmpty ∧ d2.isEmpty then false
    else
      match r2 with
      | [] => true
      | e :: cs =>
        if e = 'e' ∨ e = 'E' then
          let cs2 := match cs with
            | c :: cs3 => if c = '+' ∨ c = '-' then cs3 else c :: cs3
            | [] => []
          let (d3, r3) := digitSpan cs2
          decide (¬d3.isEmpty) && decide (r3 = [])
        else false

/-- `consume_num` of src/frontend/lexer.rs: scan the numeral, then parse
it as a float (if the float flag was set) or as an integer. -/
def consume_num (rest : List Char) (loc : LineLocation) :
    LexRes × List Char × LineLocation :=
  let start := loc
  match scanNum rest loc [] false false with
  | (num, float_flag, rest2, loc2) =>
    let location : FileLocation := ⟨start, loc2⟩
    if float_flag then
      if floatParseOk num then (LexRes.tok (Token.Float (String.mk num)) location, rest2, loc2)
      else (LexRes.err (ErrorType.InvalidNum "invalid float literal") location, rest2, loc2)
    else
      match consume_int num with
      | Except.ok i => (LexRes.tok (Token.Integer i) location, rest2, loc2)
      | Except.error e => (LexRes.err (ErrorType.InvalidNum e) location, rest2, loc2)

/-- Scanning loop of `consume_id_or_key`: push `_` and any character
outside the whitespace / reserved punctuation classes, stop (without
consuming) at a delimiter. -/
def scanId : List Char → LineLocation → List Char → List Char × List Char × LineLocation
  | c :: cs, loc, name =>
    if c = '_' then scanId cs (advanceLoc loc c) (name ++ [c])
    else if isWs c || isReservedPunct c then (name, c :: cs, loc)
    else scanId cs (advanceLoc loc c) (name ++ [c])
  | [], loc, name => (name, [], loc)

/-- Keyword table of `consume_id_or_key` (src/frontend/lexer.rs lines
398-421); `and`, `or`, `not` lex as operators; anything unmatched is an
identifier. -/
def keywordOf (s : String) : Token :=
  match s with
  | "and" => Token.Op Operator.And
  | "or" => Token.Op Operator.Or
  | "not" => Token.Op Operator.Not
  | "true" => Token.Key Keyword.True
  | "false" => Token.Key Keyword.False
  | "do" => Token.Key Keyword.Do
  | "end" => Token.Key Keyword.End
  | "if" => Token.Key Keyword.If
  | "then" => Token.Key Keyword.Then
  | "else" => Token.Key Keyword.Else
  | "elsif" => Token.Key Keyword.Elsif
  | "case" => Token.Key Keyword.Case
  | "in" => Token.Key Keyword.In
  | "for" => Token.Key Keyword.For
  | "nil" => Token.Key Keyword.Nil
  | "return" => Token.Key Keyword.Return
  | "assert" => Token.Key Keyword.Assert
  | "continue" => Token.Key Keyword.Continue
  | "break" => Token.Key Keyword.Break
  | "loop" => Token.Key Keyword.Loop
  | "class" => Token.Key Keyword.Class
  | "def" => Token.Key Keyword.Def
  | _ => Token.Id s

/-- `consume_id_or_key` of src/frontend/lexer.rs. -/
def consume_id_or_key (rest : List Char) (loc : LineLocation) :
    LexRes × List Char × LineLocation :=
  let start := loc
  match scanId rest loc [] with
  | (name, rest2, loc2) =>
    (LexRes.tok (keywordOf (String.mk name)) ⟨start, loc2⟩, rest2, loc2)

/-- Result of `consume_escape`: a decoded character, a recoverable
invalid escape, or the reached `unreachable!()`. -/
inductive EscRes where
  | ok (c : Char)
  | invalid
  | panicked
deriving DecidableEq

/-- `consume_hex_escape` of src/frontend/lexer.rs: exactly `count` hex
digits accumulated into a `u32` (a `Nat` here: the accumulator stays
below 16^8 = 2^32, so `u32` arithmetic never wraps), then `char::from_u32`
validity (rejecting surrogates and values above 0x10FFFF).  A non-hex
character fails without consuming it. -/
def consumeHexEscape (count : Nat) (x : Nat) (rest : List Char) (loc : LineLocation) :
    Option Char × List Char × LineLocation :=
  match count with
  | 0 =>
    if h : Nat.isValidChar x then (some (Char.ofNatAux x h), rest, loc)
    else (none, rest, loc)
  | n + 1 =>
    let x2 := x * 16
    match rest with
    | c :: cs =>
      if '0' ≤ c ∧ c ≤ '9' then
        consumeHexEscape n (x2 + (c.toNat - '0'.toNat)) cs (advanceLoc loc c)
      else if 'a' ≤ c ∧ c ≤ 'f' then
        consumeHexEscape n (x2 + (c.toNat - 'a'.toNat + 10)) cs (advanceLoc loc c)
      else if 'A' ≤ c ∧ c ≤ 'F' then
        consumeHexEscape n (x2 + (c.toNat - 'A'.toNat + 10)) cs (advanceLoc loc c)
      else (none, c :: cs, loc)
    | [] => (none, [], loc)

/-- Converts a hex-escape outcome to an escape result (`Ok`/`Err(())` of
the source). -/
def hexToEsc : Option Char × List Char × LineLocation → EscRes × List Char × LineLocation
  | (some c, r, l) => (EscRes.ok c, r, l)
  | (none, r, l) => (EscRes.invalid, r, l)

/-- `consume_escape` of src/frontend/lexer.rs, called just after a
backslash.  An exhausted iterator reaches the source's `unreachable!()`:
that outcome is `panicked`. -/
def consume_escape (rest : List Char) (loc : LineLocation) :
    EscRes × List Char × LineLocation :=
  match rest with
  | [] => (EscRes.panicked, [], loc)
  | c :: cs =>
    let loc2 := advanceLoc loc c
    match c with
    | '\\' => (EscRes.ok '\\', cs, loc2)
    | 't' => (EscRes.ok '\t', cs, loc2)
    | 'n' => (EscRes.ok '\n', cs, loc2)
    | 'r' => (EscRes.ok '\r', cs, loc2)
    | '\"' => (EscRes.ok '\"', cs, loc2)
    | '\'' => (EscRes.ok '\'', cs, loc2)
    | 'x' => hexToEsc (consumeHexEscape 2 0 cs loc2)
    | 'u' => hexToEsc (consumeHexEscape 4 0 cs loc2)
    | 'U' => hexToEsc (consumeHexEscape 8 0 cs loc2)
    | _ => (EscRes.invalid, cs, loc2)

/-- Main loop of `consume_string` (src/frontend/lexer.rs lines 476-523):
consume characters, decoding escapes after a backslash, until the
matching quote (success, or the invalid-escape error if the invalid flag
was set) or end of input (the not-terminated error).  Every iteration
consumes at least one character, so the fuel `consume_string` supplies
(input length + 1) always suffices; `nofuel` is unreachable from it. -/
def strLoop : Nat → List Char → LineLocation → LineLocation → Bool → List Char → Bool →
    LexRes × List Char × LineLocation
  | 0, rest, loc, _, _, _, _ => (LexRes.nofuel, rest, loc)
  | fuel + 1, rest, loc, start, is_single_quote, acc, invalid =>
    match rest with
    | [] =>
      (LexRes.err (ErrorType.InvalidStr "String is not terminated") ⟨start, loc⟩, [], loc)
    | c :: cs =>
      let loc2 := advanceLoc loc c
      if c = '\\' then
        match consume_escape cs loc2 with
        | (EscRes.ok ch, r, l) => strLoop fuel r l start is_single_quote (acc ++ [ch]) invalid
        | (EscRes.invalid, r, l) => strLoop fuel r l start is_single_quote acc true
        | (EscRes.panicked, r, l) => (LexRes.panicked, r, l)
      else if c = '\'' ∧ is_single_quote = true then
        if invalid = false then
          (LexRes.tok (Token.Str (String.mk acc)) ⟨start, loc2⟩, cs, loc2)
        else
          (LexRes.err (ErrorType.InvalidStr "String contains invalid escape sequence.")
            ⟨start, loc2⟩, cs, loc2)
      else if c = '\"' ∧ is_single_quote = false then
        if invalid = false then
          (LexRes.tok (Token.Str (String.mk acc)) ⟨start, loc2⟩, cs, loc2)
        else
          (LexRes.err (ErrorType.InvalidStr "String contains invalid escape sequence.")
            ⟨start, loc2⟩, cs, loc2)
      else strLoop fuel cs loc2 start is_single_quote (acc ++ [c]) invalid

/-- `consume_string` of src/frontend/lexer.rs: the opening quote fixes
the terminator; a non-quote start reaches the source's `unreachable!()`. -/
def consume_string (rest : List Char) (loc : LineLocation) :
    LexRes × List Char × LineLocation :=
  let start := loc
  match rest with
  | '\"' :: cs => strLoop (cs.length + 1) cs (advanceLoc loc '\"') start false [] false
  | '\'' :: cs => strLoop (cs.length + 1) cs (advanceLoc loc '\'') start true [] false
  | _ => (LexRes.panicked, rest, loc)

/-- Builds a two-character operator token (`consume_next_2_char`). -/
def op2 (o : Operator) (c1 c2 : Char) (cs : List Char) (loc : LineLocation) :
    LexRes × List Char × LineLocation :=
  let l2 := advanceLoc (advanceLoc loc c1) c2
  (LexRes.tok (Token.Op o) ⟨loc, l2⟩, cs, l2)

/-- Builds a one-character operator token. -/
def op1 (o : Operator) (c : Char) (cs : List Char) (loc : LineLocation) :
    LexRes × List Char × LineLocation :=
  let l1 := advanceLoc loc c
  (LexRes.tok (Token.Op o) ⟨loc, l1⟩, cs, l1)

/-- `consume_op` of src/frontend/lexer.rs: greedy two-character match
first, then single-character operators, otherwise the invalid-operator
error; it is only called with a punctuation character at the cursor, the
empty case reaches the source's `unreachable!()`. -/
def consume_op (rest : List Char) (loc : LineLocation) :
    LexRes × List Char × LineLocation :=
  match rest with
  | '/' :: '/' :: cs => op2 Operator.DivFloor '/' '/' cs loc
  | '*' :: '*' :: cs => op2 Operator.Exp '*' '*' cs loc
  | '.' :: '.' :: cs => op2 Operator.Range '.' '.' cs loc
  | '>' :: '=' :: cs => op2 Operator.Ge '>' '=' cs loc
  | '<' :: '=' :: cs => op2 Operator.Le '<' '=' cs loc
  | '=' :: '=' :: cs => op2 Operator.Eq '=' '=' cs loc
  | '<' :: '>' :: cs => op2 Operator.Ne '<' '>' cs loc
  | '|' :: '>' :: cs => op2 Operator.Pipeline '|' '>' cs loc
  | c :: cs =>
    match c with
    | '+' => op1 Operator.Plus c cs loc
    | '-' => op1 Operator.Minus c cs loc
    | '*' => op1 Operator.Mul c cs loc
    | '/' => op1 Operator.Div c cs loc
    | '%' => op1 Operator.Mod c cs loc
    | '=' => op1 Operator.Assign c cs loc
    | ',' => op1 Operator.Comma c cs loc
    | '.' => op1 Operator.Member c cs loc
    | '>' => op1 Operator.Gt c cs loc
    | '<' => op1 Operator.Lt c cs loc
    | '(' => op1 Operator.LPar c cs loc
    | ')' => op1 Operator.RPar c cs loc
    | '[' => op1 Operator.LBrk c cs loc
    | ']' => op1 Operator.RBrk c cs loc
    | '{' => op1 Operator.LBrc c cs loc
    | '}' => op1 Operator.RBrc c cs loc
    | ':' => op1 Operator.Colon c cs loc
    | _ =>
      let l1 := advanceLoc loc c
      (LexRes.err (ErrorType.InvalidOp (String.mk [c])) ⟨loc, l1⟩, cs, l1)
  | [] => (LexRes.panicked, [], loc)

/-- Comment-skipping loop of `Lexer::consume`: peek and consume until a
newline (left unconsumed) or end of input. -/
def skipComment : List Char → LineLocation → List Char × LineLocation
  | rest@('\n' :: _), loc => (rest, loc)
  | c :: cs, loc => skipComment cs (advanceLoc loc c)
  | [], loc => ([], loc)

/-- Shebang-skipping loop of `Lexer::consume` (src/frontend/lexer.rs
lines 583-589): `loop { if let Some('\n') = iter.next() { break } }`.
On an exhausted iterator `next()` keeps returning `None`, which never
matches `Some('\n')`, so the source loop never exits; the embedding
makes that explicit with fuel (`none` = the loop did not finish). -/
def skipShebangLoop : Nat → List Char → LineLocation → Option (List Char × LineLocation)
  | 0, _, _ => none
  | fuel + 1, rest, loc =>
    match rest with
    | c :: cs =>
      if c = '\n' then some (cs, advanceLoc loc c)
      else skipShebangLoop fuel cs (advanceLoc loc c)
    | [] => skipShebangLoop fuel [] loc

/-- Outcome of a fueled computation: a value, a reached panic
(`unreachable!()` / `todo!()`), or exhausted fuel (the source loops
without finishing within that many steps). -/
inductive Res (α : Type) where
  | ok (a : α)
  | panicked
  | nofuel

instance : Monad Res where
  pure := Res.ok
  bind r f :=
    match r with
    | Res.ok a => f a
    | Res.panicked => Res.panicked
    | Res.nofuel => Res.nofuel

/-- Main token loop of `Lexer::consume` (src/frontend/lexer.rs lines
591-637): dispatch on the character class at the cursor, collect tokens
and lexical errors. -/
def lexLoop : Nat → List Char → LineLocation → List (Token × FileLocation) →
    List (ErrorType × FileLocation) →
    Res (List (Token × FileLocation) × List (ErrorType × FileLocation))
  | 0, _, _, _, _ => Res.nofuel
  | fuel + 1, rest, loc, toks, errs =>
    match rest with
    | '-' :: '-' :: _ =>
      match skipComment rest loc with
      | (r2, l2) => lexLoop fuel r2 l2 toks errs
    | c :: cs =>
      let result : Option (LexRes × List Char × LineLocation) :=
        if '0' ≤ c ∧ c ≤ '9' then some (consume_num (c :: cs) loc)
        else if c = '\"' ∨ c = '\'' then some (consume_string (c :: cs) loc)
        else if isWs c then none
        else if isReservedPunct c then some (consume_op (c :: cs) loc)
        else some (consume_id_or_key (c :: cs) loc)
      match result with
      | none => lexLoop fuel cs (advanceLoc loc c) toks errs
      | some (LexRes.tok t l, r2, l2) => lexLoop fuel r2 l2 (toks ++ [(t, l)]) errs
      | some (LexRes.err e l, r2, l2) => lexLoop fuel r2 l2 toks (errs ++ [(e, l)])
      | some (LexRes.panicked, _, _) => Res.panicked
      | some (LexRes.nofuel, _, _) => Res.nofuel
    | [] => Res.ok (toks, errs)

/-- `Lexer::consume` of src/frontend/lexer.rs: skip a leading shebang
line, then run the token loop from position (0,0). -/
def lexConsume (fuel : Nat) (content : List Char) :
    Res (List (Token × FileLocation) × List (ErrorType × FileLocation)) :=
  match content with
  | '#' :: '!' :: _ =>
    match skipShebangLoop fuel content ⟨0, 0⟩ with
    | some (r, l) => lexLoop fuel r l [] []
    | none => Res.nofuel
  | _ => lexLoop fuel content ⟨0, 0⟩ [] []

/-! ## Parser (src/frontend/parser/mod.rs)

The parser's revision of the token iterator tracks running byte spans
(`loc`, `next_loc`); that iterator is not among the sources and no claim
concerns parser-side spans, so the embedding drops the span decoration of
AST nodes and diagnostics and keeps exactly the control flow, the token
consumption and the diagnostic kinds of src/frontend/parser/mod.rs.  The
iterator state is the list of unconsumed tokens. -/

/-- Prefix operator kinds (`OpPrefix` of parser/ast.rs, visible through
its uses in parser/mod.rs). -/
inductive PreOp where
  | Not | Neg
deriving DecidableEq

/-- Infix operator kinds (`OpInfix`). -/
inductive InfOp where
  | Assign | Range | Or | And | Eq | Ne | Le | Lt | Ge | Gt
  | Plus | Minus | Mul | Div | DivFloor | Mod | Exp | Comma
deriving DecidableEq

/-- Postfix operator kinds (`OpPostfix`). -/
inductive PostOp where
  | Call | Index
deriving DecidableEq

mutual
/-- Expressions (`Expr_` of parser/ast.rs, visible through its uses in
parser/mod.rs and described in the spec's data model; span dropped).
The source names `Prefix`/`Infix`/`Postfix`/`Const` are extended to
avoid clashes. -/
inductive Expr where
  | Id (s : String)
  | Cst (c : Const)
  | PrefixExpr (op : PreOp) (e : Expr)
  | InfixExpr (op : InfOp) (l : Expr) (r : Expr)
  | PostfixExpr (op : PostOp) (l : Expr) (arg : Option Expr)
  | If (exprs : List Expr)
  | Block (exprs : List Expr)
  | Def (name : Option String) (decl : Option Expr) (body : Expr)
  | Error

/-- Constants (`Const` of parser/ast.rs). -/
inductive Const where
  | Nil
  | BoolC (b : Bool)
  | IntC (i : Int)
  | FloatC (text : String)
  | Str (s : String)
  | ListC (inner : Option Expr)
end

/-- Statements (`Stat_` of parser/ast.rs): currently one variant. -/
inductive Stat where
  | Expr (e : Expr)

/-- `precedence_infix` of src/frontend/parser/mod.rs (u32 pairs as Nat). -/
def precedenceInf (op : InfOp) : Nat × Nat :=
  match op with
  | InfOp.Assign => (1, 2)
  | InfOp.Comma => (3, 4)
  | InfOp.Range => (5, 6)
  | InfOp.Or => (7, 8)
  | InfOp.And => (9, 10)
  | InfOp.Eq | InfOp.Ne | InfOp.Le | InfOp.Lt | InfOp.Gt | InfOp.Ge => (11, 12)
  | InfOp.Plus | InfOp.Minus => (13, 14)
  | InfOp.Mul | InfOp.Div | InfOp.DivFloor | InfOp.Mod => (15, 16)
  | InfOp.Exp => (17, 18)

/-- `precedence_prefix` of src/frontend/parser/mod.rs. -/
def precedencePre : Nat := 100

/-- `precedence_postfix` of src/frontend/parser/mod.rs. -/
def precedencePost : Nat := 101

/-- Parser error kinds (`ErrorCode` of parser/error.rs, visible through
its uses in parser/mod.rs and the spec's diagnostic taxonomy; span
payloads dropped, the `previous` context keeps its token). -/
inductive ErrorCode where
  | UnexpectedToken (t : Option Token) (expected : Option Token) (previous : Option Token)
  | UnexpectedEof
  | MissingExpr
deriving DecidableEq

/-- Modelled from the spec: whether a recorded error is of the
"unexpected end-of-input" kind (spec section 6: `input_can_continue` is
about errors of exactly that type).  It mirrors the classification
`Parser::add_diagnostic` itself uses for deduplication: `UnexpectedEof`
and `UnexpectedToken(None, _, _)` are end-of-input type. -/
def isEofErrorCode : ErrorCode → Bool
  | ErrorCode.UnexpectedEof => true
  | ErrorCode.UnexpectedToken none _ _ => true
  | _ => false

/-- Modelled from the spec: classification of a lexical error as
end-of-input type.  The Lexer revision the parser talks to (its
`has_eof_error`/`has_non_eof_error`, from frontend/error.rs of that
revision) is not among the sources; the spec's taxonomy (section 7)
lists the lexical kinds — invalid numeral, invalid string, invalid
operator — as distinct from the syntactic unexpected end-of-input kind,
so no lexer-recorded error is end-of-input type. -/
def isEofLexError (_ : ErrorType) : Bool := false

/-- State of one registered file's lexer as the parser sees it. -/
structure LexerS where
  tokens : List (Token × FileLocation)
  errors : List (ErrorType × FileLocation)

/-- `Lexer::has_eof_error` (modelled, see `isEofLexError`). -/
def LexerS.has_eof_error (l : LexerS) : Bool :=
  l.errors.any (fun e => isEofLexError e.1)

/-- `Lexer::has_non_eof_error` (modelled, see `isEofLexError`). -/
def LexerS.has_non_eof_error (l : LexerS) : Bool :=
  l.errors.any (fun e => !isEofLexError e.1)

/-- `Lexer::diagnostic_count`: number of recorded lexical errors. -/
def LexerS.diagnostic_count (l : LexerS) : Nat := l.errors.length

/-- The diagnostic sink (`Diagnoser`, an external collaborator consumed
through push/count/new_file): recorded diagnostics are (kind, file id)
pairs, `nfiles` is the next file id handed out by `new_file`. -/
structure Diagnoser where
  diags : List (ErrorCode × Nat)
  nfiles : Nat

/-- `Parser` state of src/frontend/parser/mod.rs (the `ast` field's
statement vector is inlined as `statements`; the AHashMap of files is an
association list). -/
structure ParserS where
  diagnoser : Diagnoser
  files : List (String × LexerS)
  statements : List Stat
  current_file_id : Nat
  consumed : Nat
  has_eof_error : Bool
  has_non_eof_error : Bool

/-- `Parser::new`. -/
def ParserS.new : ParserS := ⟨⟨[], 0⟩, [], [], 0, 0, false, false⟩

/-- `Parser::get_incremental`: statements not consumed before, marking
them consumed. -/
def get_incremental (p : ParserS) : List Stat × ParserS :=
  let last := p.consumed
  (p.statements.drop last, { p with consumed := p.statements.length })

/-- `Parser::input_can_continue` of src/frontend/parser/mod.rs. -/
def input_can_continue (p : ParserS) : Bool :=
  if p.files.all (fun f => !f.2.has_non_eof_error) && p.files.any (fun f => f.2.has_eof_error) then
    true
  else p.has_eof_error && !p.has_non_eof_error

/-- `Parser::add_diagnostic`: end-of-input-type errors are deduplicated
per session (only the first is pushed), any other kind sets the
non-end-of-input flag; pushed diagnostics carry the current file id. -/
def add_diagnostic (p : ParserS) (e : ErrorCode) : ParserS :=
  match e with
  | ErrorCode.UnexpectedEof | ErrorCode.UnexpectedToken none _ _ =>
    if p.has_eof_error then p
    else
      { p with
        has_eof_error := true
        diagnoser := { p.diagnoser with diags := p.diagnoser.diags ++ [(e, p.current_file_id)] } }
  | _ =>
    { p with
      has_non_eof_error := true
      diagnoser := { p.diagnoser with diags := p.diagnoser.diags ++ [(e, p.current_file_id)] } }

/-- `Parser::diagnostic_count`: session diagnostics plus every registered
lexer's count. -/
def diagnostic_count (p : ParserS) : Nat :=
  p.diagnoser.diags.length + (p.files.map (fun f => f.2.diagnostic_count)).sum

/-- Token-kind match against an expected operator (`test_match` of
`consume_to_op`: discriminant comparison; `Operator` is fieldless, so
discriminant equality is equality). -/
def test_match_op (expected : Operator) (it : List Token) : Bool :=
  match it with
  | Token.Op o :: _ => decide (o = expected)
  | _ => false

/-- Token-kind match against an expected keyword (`test_match` of
`consume_to_key`). -/
def test_match_key (expected : Keyword) (it : List Token) : Bool :=
  match it with
  | Token.Key k :: _ => decide (k = expected)
  | _ => false

/-- Skip loop of `consume_to_op`: consume until the expected operator
(consuming it, success) or end of input (deduplicated end-of-input
diagnostic, failure). -/
def consume_to_op_loop (p : ParserS) (it : List Token) (expected : Operator) :
    Bool × ParserS × List Token :=
  match it with
  | t :: rest =>
    if test_match_op expected (t :: rest) then (false, p, rest)
    else consume_to_op_loop p rest expected
  | [] => (true, add_diagnostic p ErrorCode.UnexpectedEof, [])

/-- `Parser::consume_to_op`: if the cursor already matches, consume it
silently; otherwise consume one token, emit one unexpected-token
diagnostic (with the expected operator and the supplied previous-token
context) and panic-skip to the expected operator.  Returns true iff end
of input was reached. -/
def consume_to_op (p : ParserS) (it : List Token) (expected : Operator)
    (previous : Option Token) : Bool × ParserS × List Token :=
  if test_match_op expected it then (false, p, it.tail)
  else
    let t := it.head?
    let p2 := add_diagnostic p (ErrorCode.UnexpectedToken t (some (Token.Op expected)) previous)
    consume_to_op_loop p2 it.tail expected

/-- Skip loop of `consume_to_key`. -/
def consume_to_key_loop (p : ParserS) (it : List Token) (expected : Keyword) :
    Bool × ParserS × List Token :=
  match it with
  | t :: rest =>
    if test_match_key expected (t :: rest) then (false, p, rest)
    else consume_to_key_loop p rest expected
  | [] => (true, add_diagnostic p ErrorCode.UnexpectedEof, [])

/-- `Parser::consume_to_key`, the keyword analogue of `consume_to_op`. -/
def consume_to_key (p : ParserS) (it : List Token) (expected : Keyword)
    (previous : Option Token) : Bool × ParserS × List Token :=
  if test_match_key expected it then (false, p, it.tail)
  else
    let t := it.head?
    let p2 := add_diagnostic p (ErrorCode.UnexpectedToken t (some (Token.Key expected)) previous)
    consume_to_key_loop p2 it.tail expected

/-- The infix-operator table of the climbing loop (src/frontend/parser/
mod.rs lines 743-763); any other token stops the loop. -/
def infixOf (t : Token) : Option InfOp :=
  match t with
  | Token.Op Operator.Assign => some InfOp.Assign
  | Token.Op Operator.Range => some InfOp.Range
  | Token.Op Operator.Or => some InfOp.Or
  | Token.Op Operator.And => some InfOp.And
  | Token.Op Operator.Eq => some InfOp.Eq
  | Token.Op Operator.Ne => some InfOp.Ne
  | Token.Op Operator.Le => some InfOp.Le
  | Token.Op Operator.Lt => some InfOp.Lt
  | Token.Op Operator.Ge => some InfOp.Ge
  | Token.Op Operator.Gt => some InfOp.Gt
  | Token.Op Operator.Plus => some InfOp.Plus
  | Token.Op Operator.Minus => some InfOp.Minus
  | Token.Op Operator.Mul => some InfOp.Mul
  | Token.Op Operator.Div => some InfOp.Div
  | Token.Op Operator.DivFloor => some InfOp.DivFloor
  | Token.Op Operator.Mod => some InfOp.Mod
  | Token.Op Operator.Exp => some InfOp.Exp
  | Token.Op Operator.Comma => some InfOp.Comma
  | _ => none

/-- `Parser::consume_class`: `todo!()` in the source — reaching it
panics. -/
def consume_class (_p : ParserS) (_it : List Token) : Res (Stat × ParserS × List Token) :=
  Res.panicked

mutual

/-- `Parser::consume_expr` of src/frontend/parser/mod.rs: primary /
prefix production, then the precedence-climbing loop
(`consume_expr_loop`).  `not_take_on_error` is the forbidden-next-token
parameter: on a primary-parse failure whose token kind matches it, a
missing-expression diagnostic is emitted without consuming; otherwise
the token is consumed with an unexpected-token diagnostic.  Both failure
branches return the `Error` placeholder without entering the loop. -/
def consume_expr (fuel : Nat) (p : ParserS) (it : List Token) (min_precedence : Nat)
    (not_take_on_error : Option Token) : Res (Expr × ParserS × List Token) :=
  match fuel with
  | 0 => Res.nofuel
  | f + 1 =>
    match it with
    | Token.Id s :: rest =>
      consume_expr_loop f p rest (Expr.Id s) min_precedence not_take_on_error
    | Token.Key Keyword.Nil :: rest =>
      consume_expr_loop f p rest (Expr.Cst Const.Nil) min_precedence not_take_on_error
    | Token.Key Keyword.Def :: _ => do
      let (e, p2, it2) ← consume_def f p it
      consume_expr_loop f p2 it2 e min_precedence not_take_on_error
    | Token.Str s :: rest =>
      consume_expr_loop f p rest (Expr.Cst (Const.Str s)) min_precedence not_take_on_error
    | Token.Float x :: rest =>
      consume_expr_loop f p rest (Expr.Cst (Const.FloatC x)) min_precedence not_take_on_error
    | Token.Integer i :: rest =>
      consume_expr_loop f p rest (Expr.Cst (Const.IntC i)) min_precedence not_take_on_error
    | Token.Key Keyword.True :: rest =>
      consume_expr_loop f p rest (Expr.Cst (Const.BoolC true)) min_precedence not_take_on_error
    | Token.Key Keyword.False :: rest =>
      consume_expr_loop f p rest (Expr.Cst (Const.BoolC false)) min_precedence not_take_on_error
    | Token.Op Operator.LPar :: rest => do
      let (lhs, p2, it2) ← consume_expr f p rest 0 (some (Token.Op Operator.RPar))
      match consume_to_op p2 it2 Operator.RPar (some (Token.Op Operator.LPar)) with
      | (_, p3, it3) => consume_expr_loop f p3 it3 lhs min_precedence not_take_on_error
    | Token.Op Operator.Not :: rest => do
      let (rhs, p2, it2) ← consume_expr f p rest precedencePre not_take_on_error
      consume_expr_loop f p2 it2 (Expr.PrefixExpr PreOp.Not rhs) min_precedence not_take_on_error
    | Token.Op Operator.Minus :: rest => do
      let (rhs, p2, it2) ← consume_expr f p rest precedencePre not_take_on_error
      consume_expr_loop f p2 it2 (Expr.PrefixExpr PreOp.Neg rhs) min_precedence not_take_on_error
    | Token.Key Keyword.If :: _ => do
      let (e, p2, it2) ← consume_if f p it
      consume_expr_loop f p2 it2 e min_precedence not_take_on_error
    | Token.Key Keyword.Begin :: _ => do
      let (e, p2, it2) ← consume_block f p it
      consume_expr_loop f p2 it2 e min_precedence not_take_on_error
    | Token.Op Operator.LBrk :: rest =>
      match rest with
      | Token.Op Operator.RBrk :: rest2 =>
        consume_expr_loop f p rest2 (Expr.Cst (Const.ListC none)) min_precedence not_take_on_error
      | _ => do
        let (e, p2, it2) ← consume_expr f p rest 0 (some (Token.Op Operator.RBrk))
        match consume_to_op p2 it2 Operator.RBrk (some (Token.Op Operator.LBrk)) with
        | (_, p3, it3) =>
          consume_expr_loop f p3 it3 (Expr.Cst (Const.ListC (some e))) min_precedence
            not_take_on_error
    | tok :: rest =>
      let should_not_consume : Bool :=
        match tok, not_take_on_error with
        | Token.Op o, some (Token.Op o_avoid) => decide (o = o_avoid)
        | Token.Key k, some (Token.Key k_avoid) => decide (k = k_avoid)
        | _, _ => false
      if should_not_consume then
        Res.ok (Expr.Error, add_diagnostic p ErrorCode.MissingExpr, tok :: rest)
      else
        Res.ok (Expr.Error,
          add_diagnostic p (ErrorCode.UnexpectedToken (some tok) none none), rest)
    | [] => Res.ok (Expr.Error, add_diagnostic p ErrorCode.UnexpectedEof, [])

/-- Precedence-climbing loop of `consume_expr` (src/frontend/parser/
mod.rs lines 655-782): a `Call` marker followed by `(` / `[` resolves to
the postfix call/index at `precedence_postfix`; otherwise a recognized
infix operator continues while its left binding is at least the caller's
minimum; anything else returns the accumulated left-hand side. -/
def consume_expr_loop (fuel : Nat) (p : ParserS) (it : List Token) (lhs : Expr)
    (min_precedence : Nat) (not_take_on_error : Option Token) :
    Res (Expr × ParserS × List Token) :=
  match fuel with
  | 0 => Res.nofuel
  | f + 1 =>
    match it with
    | Token.Op Operator.Call :: rest2 =>
      match rest2 with
      | Token.Op Operator.LPar :: it2 =>
        if precedencePost > min_precedence then
          match it2 with
          | Token.Op Operator.RPar :: it3 =>
            consume_expr_loop f p it3 (Expr.PostfixExpr PostOp.Call lhs none) min_precedence
              not_take_on_error
          | _ => do
            let (e, p2, it3) ← consume_expr f p it2 0 (some (Token.Op Operator.RPar))
            match consume_to_op p2 it3 Operator.RPar (some (Token.Op Operator.LPar)) with
            | (_, p3, it4) =>
              consume_expr_loop f p3 it4 (Expr.PostfixExpr PostOp.Call lhs (some e))
                min_precedence not_take_on_error
        else Res.ok (lhs, p, it)
      | Token.Op Operator.LBrk :: it2 =>
        if precedencePost > min_precedence then do
          let (e, p2, it3) ← consume_expr f p it2 0 (some (Token.Op Operator.RBrk))
          match consume_to_op p2 it3 Operator.RBrk (some (Token.Op Operator.LBrk)) with
          | (_, p3, it4) =>
            consume_expr_loop f p3 it4 (Expr.PostfixExpr PostOp.Index lhs (some e))
              min_precedence not_take_on_error
        else Res.ok (lhs, p, it)
      | tok :: it2 =>
        Res.ok (lhs,
          add_diagnostic p
            (ErrorCode.UnexpectedToken (some tok) none (some (Token.Op Operator.Colon))), it2)
      | [] => Res.ok (lhs, add_diagnostic p ErrorCode.UnexpectedEof, [])
    | tok :: rest =>
      match infixOf tok with
      | none => Res.ok (lhs, p, it)
      | some op =>
        let pr := precedenceInf op
        if pr.1 < min_precedence then Res.ok (lhs, p, it)
        else do
          let (rhs, p2, it2) ← consume_expr f p rest pr.2 not_take_on_error
          consume_expr_loop f p2 it2 (Expr.InfixExpr op lhs rhs) min_precedence
            not_take_on_error
    | [] => Res.ok (lhs, p, it)

/-- `Parser::consume_cond_then`: one condition expression (forbidding
`then` inside it), then `then` via recovery; `none` when end of input
was reached. -/
def consume_cond_then (fuel : Nat) (p : ParserS) (it : List Token) :
    Res (Option Expr × ParserS × List Token) :=
  match fuel with
  | 0 => Res.nofuel
  | f + 1 => do
    let (condition, p2, it2) ← consume_expr f p it 0 (some (Token.Key Keyword.Then))
    match consume_to_key p2 it2 Keyword.Then (some (Token.Key Keyword.If)) with
    | (eof, p3, it3) =>
      if eof then Res.ok (none, p3, it3) else Res.ok (some condition, p3, it3)

/-- `Parser::consume_if`: consume `if`, the first condition/then pair,
then the block-collection state machine (`consume_if_loop`). -/
def consume_if (fuel : Nat) (p : ParserS) (it : List Token) :
    Res (Expr × ParserS × List Token) :=
  match fuel with
  | 0 => Res.nofuel
  | f + 1 => do
    let (c?, p2, it2) ← consume_cond_then f p it.tail
    match c? with
    | none => Res.ok (Expr.Error, p2, it2)
    | some cond => consume_if_loop f p2 it2 [cond] []

/-- Block-collection loop of `consume_if`: collect expressions into the
current block; `elsif` closes the block and restarts condition/then;
`else` closes the block and hands over to `consume_if_else_loop`; end of
input emits the unexpected-token (no token, expected `else`) diagnostic
and degrades to `Error`. -/
def consume_if_loop (fuel : Nat) (p : ParserS) (it : List Token) (exprs : List Expr)
    (block : List Expr) : Res (Expr × ParserS × List Token) :=
  match fuel with
  | 0 => Res.nofuel
  | f + 1 =>
    match it with
    | Token.Key Keyword.Elsif :: rest => do
      let exprs2 := exprs ++ [Expr.Block block]
      let (c?, p2, it2) ← consume_cond_then f p rest
      match c? with
      | none => Res.ok (Expr.Error, p2, it2)
      | some cond => consume_if_loop f p2 it2 (exprs2 ++ [cond]) []
    | Token.Key Keyword.Else :: rest =>
      consume_if_else_loop f p rest (exprs ++ [Expr.Block block]) []
    | _ :: _ => do
      let (e, p2, it2) ← consume_expr f p it 0 (some (Token.Key Keyword.Else))
      consume_if_loop f p2 it2 exprs (block ++ [e])
    | [] =>
      Res.ok (Expr.Error,
        add_diagnostic p
          (ErrorCode.UnexpectedToken none (some (Token.Key Keyword.Else))
            (some (Token.Key Keyword.If))), [])

/-- Else-block loop of `consume_if`: collect expressions until `end`
(finalizing the `If` node with the trailing else-block) or end of input
(end-of-input diagnostic, `Error`). -/
def consume_if_else_loop (fuel : Nat) (p : ParserS) (it : List Token) (exprs : List Expr)
    (block : List Expr) : Res (Expr × ParserS × List Token) :=
  match fuel with
  | 0 => Res.nofuel
  | f + 1 =>
    match it with
    | Token.Key Keyword.End :: rest =>
      Res.ok (Expr.If (exprs ++ [Expr.Block block]), p, rest)
    | _ :: _ => do
      let (e, p2, it2) ← consume_expr f p it 0 (some (Token.Key Keyword.End))
      consume_if_else_loop f p2 it2 exprs (block ++ [e])
    | [] => Res.ok (Expr.Error, add_diagnostic p ErrorCode.UnexpectedEof, [])

/-- `Parser::consume_def`: consume `def`, an optional identifier name,
a mandatory `(` via recovery, the optional parameter declaration up to
`)`, and a body expression. -/
def consume_def (fuel : Nat) (p : ParserS) (it : List Token) :
    Res (Expr × ParserS × List Token) :=
  match fuel with
  | 0 => Res.nofuel
  | f + 1 =>
    let it1 := it.tail
    let nameIt : Option String × List Token :=
      match it1 with
      | Token.Id s :: rest => (some s, rest)
      | _ => (none, it1)
    match nameIt with
    | (name, it2) =>
      match consume_to_op p it2 Operator.LPar (some (Token.Key Keyword.Def)) with
      | (eof, p2, it3) =>
        if eof then Res.ok (Expr.Error, p2, it3)
        else
          match it3 with
          | Token.Op Operator.RPar :: rest => do
            let (body, p3, it4) ← consume_expr f p2 rest 0 none
            Res.ok (Expr.Def name none body, p3, it4)
          | _ => do
            let (decl, p3, it4) ← consume_expr f p2 it3 0 (some (Token.Op Operator.RPar))
            match consume_to_op p3 it4 Operator.RPar (some (Token.Op Operator.LPar)) with
            | (eof2, p4, it5) =>
              if eof2 then Res.ok (Expr.Error, p4, it5)
              else do
                let (body, p5, it6) ← consume_expr f p4 it5 0 none
                Res.ok (Expr.Def name (some decl) body, p5, it6)

/-- `Parser::consume_block`: consume the opening keyword, then collect
expressions until `end` (or end of input, with a diagnostic but still a
Block node). -/
def consume_block (fuel : Nat) (p : ParserS) (it : List Token) :
    Res (Expr × ParserS × List Token) :=
  match fuel with
  | 0 => Res.nofuel
  | f + 1 => consume_block_loop f p it.tail []

/-- Expression-collection loop of `consume_block`. -/
def consume_block_loop (fuel : Nat) (p : ParserS) (it : List Token) (exprs : List Expr) :
    Res (Expr × ParserS × List Token) :=
  match fuel with
  | 0 => Res.nofuel
  | f + 1 =>
    match it with
    | Token.Key Keyword.End :: rest => Res.ok (Expr.Block exprs, p, rest)
    | _ :: _ => do
      let (e, p2, it2) ← consume_expr f p it 0 (some (Token.Key Keyword.End))
      consume_block_loop f p2 it2 (exprs ++ [e])
    | [] => Res.ok (Expr.Block exprs, add_diagnostic p ErrorCode.UnexpectedEof, [])

end

/-- Statement loop of `Parser::parse_file` (src/frontend/parser/mod.rs
lines 210-224): a leading `class` keyword dispatches to the
class-declaration stub, any other token parses one expression statement,
end of input stops. -/
def parse_stmts (fuel : Nat) (p : ParserS) (it : List Token) : Res ParserS :=
  match fuel with
  | 0 => Res.nofuel
  | f + 1 =>
    match it with
    | Token.Key Keyword.Class :: _ => do
      let (stat, p2, it2) ← consume_class p it
      parse_stmts f { p2 with statements := p2.statements ++ [stat] } it2
    | _ :: _ => do
      let (e, p2, it2) ← consume_expr f p it 0 none
      parse_stmts f { p2 with statements := p2.statements ++ [Stat.Expr e] } it2
    | [] => Res.ok p

/-- Association-list insert for the parser's file map. -/
def insert_file : List (String × LexerS) → String → LexerS → List (String × LexerS)
  | [], k, v => [(k, v)]
  | (k0, v0) :: rest, k, v =>
    if k0 = k then (k, v) :: rest else (k0, v0) :: insert_file rest k v

/-- `Parser::parse_file`: lex the content, register a new file id with
the diagnoser, run the statement loop, and retain the file's lexer. -/
def parse_file (fuel : Nat) (p : ParserS) (path : String) (content : String) : Res ParserS :=
  match lexConsume fuel content.toList with
  | Res.nofuel => Res.nofuel
  | Res.panicked => Res.panicked
  | Res.ok (toks, errs) =>
    let lexer : LexerS := ⟨toks, errs⟩
    let fid := p.diagnoser.nfiles
    let p1 := { p with
      diagnoser := { p.diagnoser with nfiles := fid + 1 }
      current_file_id := fid }
    match parse_stmts fuel p1 (toks.map Prod.fst) with
    | Res.ok p2 => Res.ok { p2 with files := insert_file p2.files path lexer }
    | Res.panicked => Res.panicked
    | Res.nofuel => Res.nofuel

/-- `Parser::parse_str`: parse an in-memory source. -/
def parse_str (fuel : Nat) (p : ParserS) (path : String) (content : String) : Res ParserS :=
  parse_file fuel p path content

/-- Projection: the statement list of a successful parse. -/
def resStats : Res ParserS → Option (List Stat)
  | Res.ok p => some p.statements
  | _ => none

/-- Projection: the total diagnostic count of a successful parse. -/
def resDiagCount : Res ParserS → Option Nat
  | Res.ok p => some (diagnostic_count p)
  | _ => none

/-! ## Claim-support definitions -/

/-- The scan result of `consume_num` on one literal at position (0,0). -/
def num_result (s : String) : LexRes := (consume_num s.toList ⟨0, 0⟩).1

/-- The scan result of `consume_string` on one literal at position (0,0). -/
def str_result (s : String) : LexRes := (consume_string s.toList ⟨0, 0⟩).1

/-- The integer payload of a produced `Integer` token, if any. -/
def intTokenOf : LexRes → Option Int
  | LexRes.tok (Token.Integer i) _ => some i
  | _ => none

/-- Whether a scan produced the invalid-numeric-literal error. -/
def isInvalidNumRes : LexRes → Bool
  | LexRes.err (ErrorType.InvalidNum _) _ => true
  | _ => false

/-- The text payload of a produced `Str` token, if any. -/
def strTokenOf : LexRes → Option String
  | LexRes.tok (Token.Str s) _ => some s
  | _ => none

/-- The reason text of a produced invalid-string-literal error, if any. -/
def strErrReason : LexRes → Option String
  | LexRes.err (ErrorType.InvalidStr r) _ => some r
  | _ => none

/-- A concrete two-file parse session: file `f1` contains `?` (an
invalid operator character, a lexical non-end-of-input error), and file
`f2` contains `(a` (an unclosed parenthesis, an end-of-input-type
session error). -/
def c4run : Res ParserS := do
  let p1 ← parse_str 1000 ParserS.new "f1" "?"
  parse_str 1000 p1 "f2" "(a"

/-- Whether any error recorded anywhere — in a registered file's lexer
or in the parse session — is not of the end-of-input kind. -/
def has_non_eof_recorded (p : ParserS) : Bool :=
  p.files.any (fun f => f.2.errors.any (fun e => !isEofLexError e.1)) ||
    p.diagnoser.diags.any (fun d => !isEofErrorCode d.1)

/-- Projection: `input_can_continue` of a successful parse. -/
def resICC : Res ParserS → Option Bool
  | Res.ok p => some (input_can_continue p)
  | _ => none

/-- Projection: `has_non_eof_recorded` of a successful parse. -/
def resHasNonEof : Res ParserS → Option Bool
  | Res.ok p => some (has_non_eof_recorded p)
  | _ => none

/-- A concrete parser state whose session flags agree with its recorded
diagnostics: one deduplicated end-of-input error, nothing else. -/
def c4wstate : ParserS := ⟨⟨[(ErrorCode.UnexpectedEof, 0)], 1⟩, [], [], 0, 0, true, false⟩

/-- Interleaved append/retrieve runs: for each chunk, append its
statements (the effect of parsing more input) and then retrieve with
`get_incremental`, collecting each retrieval's output. -/
def incrRuns : ParserS → List (List Stat) → List (List Stat)
  | _, [] => []
  | p, c :: cs =>
    let p1 := { p with statements := p.statements ++ c }
    match get_incremental p1 with
    | (out, p2) => out :: incrRuns p2 cs

/-! ## Theorems -/

theorem natCmp_lt_iff (a b : Nat) : natCmp a b = Ordering.lt ↔ a < b := by
  unfold natCmp
  split_ifs <;> simp_all

theorem natCmp_gt_iff (a b : Nat) : natCmp a b = Ordering.gt ↔ b < a := by
  unfold natCmp
  split_ifs <;> simp_all <;> omega

theorem llCmp_gt_iff (a b : LineLocation) :
    LineLocation.cmp a b = Ordering.gt ↔
      b.line < a.line ∨ (a.line = b.line ∧ b.offset < a.offset) := by
  unfold LineLocation.cmp
  cases h : natCmp a.line b.line with
  | lt =>
    have := (natCmp_lt_iff a.line b.line).1 h
    simp
    omega
  | eq =>
    have heq : a.line = b.line := by
      by_contra hne
      rcases Nat.lt_trichotomy a.line b.line with h2 | h2 | h2
      · rw [(natCmp_lt_iff a.line b.line).2 h2] at h
        exact absurd h (by simp)
      · exact hne h2
      · rw [(natCmp_gt_iff a.line b.line).2 h2] at h
        exact absurd h (by simp)
    rw [natCmp_gt_iff]
    omega
  | gt =>
    have := (natCmp_gt_iff a.line b.line).1 h
    simp
    omega

theorem llCmp_lt_iff (a b : LineLocation) :
    LineLocation.cmp a b = Ordering.lt ↔
      a.line < b.line ∨ (a.line = b.line ∧ a.offset < b.offset) := by
  unfold LineLocation.cmp
  cases h : natCmp a.line b.line with
  | lt =>
    have := (natCmp_lt_iff a.line b.line).1 h
    simp
    omega
  | eq =>
    have heq : a.line = b.line := by
      by_contra hne
      rcases Nat.lt_trichotomy a.line b.line with h2 | h2 | h2
      · rw [(natCmp_lt_iff a.line b.line).2 h2] at h
        exact absurd h (by simp)
      · exact hne h2
      · rw [(natCmp_gt_iff a.line b.line).2 h2] at h
        exact absurd h (by simp)
    rw [natCmp_lt_iff]
    omega
  | gt =>
    have := (natCmp_gt_iff a.line b.line).1 h
    simp
    omega

theorem llMin_comm (a b : LineLocation) :
    (if LineLocation.cmp a b = Ordering.gt then b else a) =
      (if LineLocation.cmp b a = Ordering.gt then a else b) := by
  by_cases h1 : LineLocation.cmp a b = Ordering.gt <;>
    by_cases h2 : LineLocation.cmp b a = Ordering.gt <;>
    simp only [h1, h2, if_true, if_false] <;>
    rw [llCmp_gt_iff] at h1 h2
  · exfalso
    omega
  · obtain ⟨al, ao⟩ := a
    obtain ⟨bl, bo⟩ := b
    simp only [LineLocation.mk.injEq]
    simp only at h1 h2
    omega

theorem llMax_comm (a b : LineLocation) :
    (if LineLocation.cmp a b = Ordering.lt then b else a) =
      (if LineLocation.cmp b a = Ordering.lt then a else b) := by
  by_cases h1 : LineLocation.cmp a b = Ordering.lt <;>
    by_cases h2 : LineLocation.cmp b a = Ordering.lt <;>
    simp only [h1, h2, if_true, if_false] <;>
    rw [llCmp_lt_iff] at h1 h2
  · exfalso
    omega
  · obtain ⟨al, ao⟩ := a
    obtain ⟨bl, bo⟩ := b
    simp only [LineLocation.mk.injEq]
    simp only at h1 h2
    omega

/-- C9: span combination (the `|` operator on `FileLocation`) is
commutative and idempotent: `s | t = t | s` (the combined span takes the
minimum start and the maximum end under the line-then-offset order), and
`s | s = s`. -/
theorem c9_span_bitor_comm_idem :
    (∀ s t : FileLocation, FileLocation.bitor s t = FileLocation.bitor t s) ∧
    (∀ s : FileLocation, FileLocation.bitor s s = s) := by
  constructor
  · intro s t
    simp only [FileLocation.bitor, FileLocation.mk.injEq]
    exact ⟨llMin_comm s.start t.start, llMax_comm s.stop t.stop⟩
  · intro s
    obtain ⟨s1, s2⟩ := s
    simp [FileLocation.bitor]

theorem skipShebangLoop_nil (fuel : Nat) (loc : LineLocation) :
    skipShebangLoop fuel [] loc = none := by
  induction fuel with
  | zero => rfl
  | succ n ih => exact ih

/-- C2: lexing does NOT terminate on every finite buffer: on a buffer
whose first line begins with `#!` and which contains no newline at all
(here the two-character buffer `#!`), the shebang-skipping loop of
`Lexer::consume` never exits, because an exhausted iterator keeps
returning `None`, which never matches `Some('\n')`.  For every fuel
bound the embedded lexer reports that the loop did not finish. -/
theorem c2_lexing_diverges_on_shebang_without_newline :
    ∀ fuel : Nat, lexConsume fuel (String.toList "#!") = Res.nofuel := by
  intro fuel
  match fuel with
  | 0 => rfl
  | 1 => rfl
  | n + 2 =>
    have h : skipShebangLoop (n + 2) ('#' :: '!' :: []) ⟨0, 0⟩ = none := by
      show skipShebangLoop n [] ⟨0, 2⟩ = none
      exact skipShebangLoop_nil n _
    show (match skipShebangLoop (n + 2) ('#' :: '!' :: []) ⟨0, 0⟩ with
      | some (r, l) => lexLoop (n + 2) r l [] []
      | none => Res.nofuel) = Res.nofuel
    rw [h]

/-- C5: the value-faithfulness of integer-literal scanning fails on hex
literals containing the digit `e`/`E`: `0xE` (mathematical value 14,
within the signed 64-bit range) is mis-flagged as a float by the
exponent rule and diagnosed as an invalid numeric literal instead of
producing `Integer 14`.  The other parts of the claim hold: the maximum
value 9223372036854775807 scans exactly in decimal, hex, octal and
binary, underscores are ignored, and 9223372036854775808 is reported as
overflow with no Integer token. -/
theorem c5_integer_literal_scanning :
    intTokenOf (num_result "0xE") = none ∧
    isInvalidNumRes (num_result "0xE") = true ∧
    intTokenOf (num_result "9223372036854775807") = some 9223372036854775807 ∧
    intTokenOf (num_result "0x7fffffffffffffff") = some 9223372036854775807 ∧
    intTokenOf (num_result "0o777777777777777777777") = some 9223372036854775807 ∧
    intTokenOf (num_result "0b111111111111111111111111111111111111111111111111111111111111111")
      = some 9223372036854775807 ∧
    intTokenOf (num_result "1_23") = some 123 ∧
    intTokenOf (num_result "9223372036854775808") = none ∧
    isInvalidNumRes (num_result "9223372036854775808") = true :=
  ⟨rfl, rfl, rfl, rfl, rfl, rfl, rfl, rfl, rfl⟩

/-- C6: string-literal scanning decodes the escape sequences literally,
rejects a surrogate `\uDfff` with the invalid-escape diagnostic, rejects
an ordinary unterminated string with the distinct not-terminated
diagnostic — but on a string whose input ends immediately after a
backslash (`'\`, also a string with no closing quote) the scanner
reaches the `unreachable!()` inside `consume_escape` and panics instead
of producing the not-terminated diagnostic. -/
theorem c6_string_literal_scanning :
    strTokenOf (str_result "'a\\tb\\nc\\rd\\\\e\\\"f\\'g\\x41h\\u00E9\\U0001F600'")
      = some "a\tb\nc\rd\\e\"f'gAhé😀" ∧
    strErrReason (str_result "'\\uDfff'") = some "String contains invalid escape sequence." ∧
    strErrReason (str_result "'abc") = some "String is not terminated" ∧
    "String is not terminated" ≠ "String contains invalid escape sequence." ∧
    str_result "'\\" = LexRes.panicked :=
  ⟨rfl, rfl, rfl, by decide, rfl⟩

/-- C1: the infix precedence table is exactly assignment(1,2) <
comma(3,4) < range(5,6) < or(7,8) < and(9,10) < comparisons(11,12) <
additive(13,14) < multiplicative(15,16) < exponent(17,18) < prefix(100)
< postfix(101), and parsing `a, b = c` yields an Assign node whose left
operand is the Comma node grouping (a, b) and whose right operand is c,
with zero diagnostics. -/
theorem c1_precedence_table_and_comma_vs_assign :
    precedenceInf InfOp.Assign = (1, 2) ∧ precedenceInf InfOp.Comma = (3, 4) ∧
    precedenceInf InfOp.Range = (5, 6) ∧ precedenceInf InfOp.Or = (7, 8) ∧
    precedenceInf InfOp.And = (9, 10) ∧ precedenceInf InfOp.Eq = (11, 12) ∧
    precedenceInf InfOp.Ne = (11, 12) ∧ precedenceInf InfOp.Le = (11, 12) ∧
    precedenceInf InfOp.Lt = (11, 12) ∧ precedenceInf InfOp.Ge = (11, 12) ∧
    precedenceInf InfOp.Gt = (11, 12) ∧ precedenceInf InfOp.Plus = (13, 14) ∧
    precedenceInf InfOp.Minus = (13, 14) ∧ precedenceInf InfOp.Mul = (15, 16) ∧
    precedenceInf InfOp.Div = (15, 16) ∧ precedenceInf InfOp.DivFloor = (15, 16) ∧
    precedenceInf InfOp.Mod = (15, 16) ∧ precedenceInf InfOp.Exp = (17, 18) ∧
    precedencePre = 100 ∧ precedencePost = 101 ∧
    resStats (parse_str 1000 ParserS.new "test.dm" "a, b = c") =
      some [Stat.Expr (Expr.InfixExpr InfOp.Assign
        (Expr.InfixExpr InfOp.Comma (Expr.Id "a") (Expr.Id "b")) (Expr.Id "c"))] ∧
    resDiagCount (parse_str 1000 ParserS.new "test.dm" "a, b = c") = some 0 :=
  ⟨rfl, rfl, rfl, rfl, rfl, rfl, rfl, rfl, rfl, rfl, rfl, rfl, rfl, rfl, rfl, rfl, rfl, rfl,
    rfl, rfl, rfl, rfl⟩

/-- C3: parsing the source `a$()` is rejected: the lexer in the sources
treats `$` as an invalid operator character, so after the parse at least
one diagnostic (here exactly two: the invalid-operator lexical error and
a missing-expression error inside the parentheses) has been recorded. -/
theorem c3_degenerate_call_rejected :
    ∃ n, resDiagCount (parse_str 1000 ParserS.new "test.dm" "a$()") = some n ∧ 1 ≤ n :=
  ⟨2, rfl, by omega⟩

/-- C7: `if a then b elsif c then d else end` parses to exactly one
statement, a single If node holding, in order, condition a, block [b],
condition c, block [d] and a trailing empty else-block, with zero
diagnostics; `if a else end` and `if a elsif b else end` each record at
least one diagnostic. -/
theorem c7_if_grammar :
    resStats (parse_str 1000 ParserS.new "test.dm" "if a then b elsif c then d else end") =
      some [Stat.Expr (Expr.If [Expr.Id "a", Expr.Block [Expr.Id "b"], Expr.Id "c",
        Expr.Block [Expr.Id "d"], Expr.Block []])] ∧
    resDiagCount (parse_str 1000 ParserS.new "test.dm" "if a then b elsif c then d else end") =
      some 0 ∧
    (∃ n, resDiagCount (parse_str 1000 ParserS.new "test.dm" "if a else end") = some n ∧
      1 ≤ n) ∧
    (∃ n, resDiagCount (parse_str 1000 ParserS.new "test.dm" "if a elsif b else end") = some n ∧
      1 ≤ n) :=
  ⟨rfl, rfl, ⟨2, rfl, by omega⟩, ⟨2, rfl, by omega⟩⟩

/-- C8: parsing the empty source succeeds with zero statements appended
and zero diagnostics recorded. -/
theorem c8_empty_source :
    resStats (parse_str 1000 ParserS.new "test.dm" "") = some [] ∧
    resDiagCount (parse_str 1000 ParserS.new "test.dm" "") = some 0 :=
  ⟨rfl, rfl⟩

/-- C4 counterexample: a reachable parser state (file `f1` = `?`, file
`f2` = `(a`) on which `input_can_continue` returns true although a
recorded error — the invalid-operator lexical error of `f1` — is not of
the end-of-input kind; the claim says any non-end-of-input error in any
component forces false. -/
theorem c4_counterexample_non_eof_error_yet_continue :
    resICC c4run = some true ∧ resHasNonEof c4run = some true :=
  ⟨rfl, rfl⟩

/-- C4 amended: for a parser state whose session flags agree with its
recorded session diagnostics, `input_can_continue` returns true exactly
when at least one COMPONENT is in the all-end-of-input state: either
every error of every registered file's lexer is of the end-of-input kind
and at least one such lexer error exists, or every session error is of
the end-of-input kind and at least one session error exists.  A
non-end-of-input error only forces false within its own component. -/
theorem any_not_any_iff {α : Type} (l : List α) (q : α → Bool) :
    (l.any q && !l.any (fun x => !q x)) = true ↔
      ((∀ x ∈ l, q x = true) ∧ (∃ x ∈ l, q x = true)) := by
  rw [Bool.and_eq_true, Bool.not_eq_true', List.any_eq_true]
  constructor
  · rintro ⟨⟨x, hx, hqx⟩, hfalse⟩
    refine ⟨?_, x, hx, hqx⟩
    intro y hy
    by_contra hne
    have htrue : l.any (fun z => !q z) = true := List.any_eq_true.2 ⟨y, hy, by simp_all⟩
    rw [htrue] at hfalse
    simp at hfalse
  · rintro ⟨hall, x, hx, hqx⟩
    refine ⟨⟨x, hx, hqx⟩, ?_⟩
    by_contra hne
    have h2 : l.any (fun z => !q z) = true := by
      cases hv : l.any (fun z => !q z)
      · exact absurd hv hne
      · rfl
    obtain ⟨y, hy, hqy⟩ := List.any_eq_true.1 h2
    have := hall y hy
    simp_all

theorem c4_input_can_continue_componentwise (p : ParserS)
    (h1 : p.has_eof_error = p.diagnoser.diags.any (fun d => isEofErrorCode d.1))
    (h2 : p.has_non_eof_error = p.diagnoser.diags.any (fun d => !isEofErrorCode d.1)) :
    input_can_continue p = true ↔
      ((∀ f ∈ p.files, ∀ e ∈ f.2.errors, isEofLexError e.1 = true) ∧
        (∃ f ∈ p.files, ∃ e ∈ f.2.errors, isEofLexError e.1 = true)) ∨
      ((∀ d ∈ p.diagnoser.diags, isEofErrorCode d.1 = true) ∧
        (∃ d ∈ p.diagnoser.diags, isEofErrorCode d.1 = true)) := by
  have hite : ∀ c s : Bool, ((if c = true then true else s) = true) ↔ (c = true ∨ s = true) := by
    decide
  have hfile : (p.files.all (fun f => !f.2.has_non_eof_error) &&
      p.files.any (fun f => f.2.has_eof_error)) = true ↔
      ((∀ f ∈ p.files, ∀ e ∈ f.2.errors, isEofLexError e.1 = true) ∧
        (∃ f ∈ p.files, ∃ e ∈ f.2.errors, isEofLexError e.1 = true)) := by
    simp [isEofLexError, LexerS.has_eof_error, LexerS.has_non_eof_error]
  unfold input_can_continue
  rw [hite, h1, h2]
  exact or_congr hfile (any_not_any_iff p.diagnoser.diags (fun d => isEofErrorCode d.1))

/-- Witness for the amended C4 theorem at a concrete state: one
deduplicated end-of-input session error, no files. -/
theorem c4_input_can_continue_componentwise_witness :
    (c4wstate.has_eof_error = c4wstate.diagnoser.diags.any (fun d => isEofErrorCode d.1)) ∧
    (c4wstate.has_non_eof_error = c4wstate.diagnoser.diags.any (fun d => !isEofErrorCode d.1)) ∧
    (input_can_continue c4wstate = true ↔
      ((∀ f ∈ c4wstate.files, ∀ e ∈ f.2.errors, isEofLexError e.1 = true) ∧
        (∃ f ∈ c4wstate.files, ∃ e ∈ f.2.errors, isEofLexError e.1 = true)) ∨
      ((∀ d ∈ c4wstate.diagnoser.diags, isEofErrorCode d.1 = true) ∧
        (∃ d ∈ c4wstate.diagnoser.diags, isEofErrorCode d.1 = true))) :=
  ⟨rfl, rfl, c4_input_can_continue_componentwise c4wstate rfl rfl⟩

theorem incrRuns_flatten_aux (chunks : List (List Stat)) :
    ∀ p : ParserS, p.consumed = p.statements.length →
      (incrRuns p chunks).flatten = chunks.flatten := by
  induction chunks with
  | nil => intro p _; rfl
  | cons c cs ih =>
    intro p h
    simp only [incrRuns, get_incremental, List.flatten_cons]
    rw [h, List.drop_left]
    congr 1
    exact ih _ rfl

/-- C10: `get_incremental` partitions the statement sequence: starting
from a fresh parser, interleaving statement appends with retrievals
returns every appended statement exactly once, in parse order (the
concatenation of the retrievals equals the concatenation of the appended
chunks); and a second retrieval with no parsing in between returns the
empty sequence, from any state. -/
theorem c10_incremental_partition :
    (∀ p : ParserS, (get_incremental (get_incremental p).2).1 = []) ∧
    (∀ chunks : List (List Stat), (incrRuns ParserS.new chunks).flatten = chunks.flatten) := by
  constructor
  · intro p
    simp [get_incremental, List.drop_length]
  · intro chunks
    exact incrRuns_flatten_aux chunks ParserS.new rfl

end Diatom
